import Mathlib

/-!
Verification of the TCKC Federal Litigation Threat Tracker query engine.

The definitions below are a shallow embedding of the filter / search /
statistics logic of `server.js` (`handleLitigationAPI`, `handleSearchAPI`,
`handleStatsAPI`, `loadDatabase`).  JavaScript string primitives
(`toLowerCase`, `toUpperCase`, `includes`, `split(' ')`, `join(' ')`) are
embedded as executable Lean functions on `String`.
-/

/-- Embedding of JavaScript `String.prototype.toLowerCase` (ASCII case map,
character by character). -/
def jsToLower (s : String) : String :=
  String.mk (s.data.map Char.toLower)

/-- Embedding of JavaScript `String.prototype.toUpperCase` (ASCII case map,
character by character). -/
def jsToUpper (s : String) : String :=
  String.mk (s.data.map Char.toUpper)

/-- Character-list helper: does `n` occur at the head of `l`? -/
def leadsWith : List Char → List Char → Bool
  | [], _ => true
  | _ :: _, [] => false
  | a :: as, b :: bs => a == b && leadsWith as bs

/-- Character-list helper: does `n` occur contiguously anywhere in `l`? -/
def occursIn (n : List Char) : List Char → Bool
  | [] => n.isEmpty
  | b :: bs => leadsWith n (b :: bs) || occursIn n bs

/-- Embedding of JavaScript `hay.includes(needle)` (contiguous substring
containment; the empty needle is contained in every string). -/
def jsIncludes (hay needle : String) : Bool :=
  occursIn needle.data hay.data

/-- Helper for `jsSplitOnSpace`: accumulate the current token (reversed). -/
def jsSplitAux : List Char → List Char → List String
  | [], acc => [String.mk acc.reverse]
  | c :: cs, acc =>
    if c == ' ' then String.mk acc.reverse :: jsSplitAux cs []
    else jsSplitAux cs (c :: acc)

/-- Embedding of JavaScript `s.split(' ')`: splits at every single space,
keeping empty tokens (so `" ".split(' ') = ["", ""]`). -/
def jsSplitOnSpace (s : String) : List String :=
  jsSplitAux s.data []

/-- Embedding of JavaScript `arr.join(' ')`. -/
def joinSpace : List String → String
  | [] => ""
  | [s] => s
  | s :: rest => s ++ " " ++ joinSpace rest

/-- An agency reference of a litigation entry: an agency code and an optional
sub-agency code (`agenciesInvolved` array elements in the database). -/
structure AgencyRef where
  agency : String
  subAgency : Option String
deriving DecidableEq, Repr

/-- The `claimsAndLegalBasis` sub-object; the query engine reads only
`summary`. -/
structure ClaimsBasis where
  summary : String
deriving DecidableEq, Repr

/-- The `culturalImpactAnalysis` sub-object; the query engine reads
`affectedCommunities` and `narrativeAssessment`. -/
structure ImpactAnalysis where
  affectedCommunities : List String
  narrativeAssessment : String
deriving DecidableEq, Repr

/-- A litigation entry with the fields read by the server's query engine.
Fields the engine never inspects are opaque payload and are omitted. -/
structure Entry where
  id : String
  caseName : String
  classification : String
  currentStatus : String
  agenciesInvolved : List AgencyRef
  claimsAndLegalBasis : ClaimsBasis
  culturalImpactAnalysis : ImpactAnalysis
deriving DecidableEq, Repr

/-- The database metadata object (`metadata.lastUpdated`). -/
structure Metadata where
  lastUpdated : String
deriving DecidableEq, Repr

/-- The parsed litigation database (`litigation-database.json`). -/
structure Database where
  litigationEntries : List Entry
  metadata : Metadata
deriving DecidableEq, Repr

/-- An HTTP JSON response of the server: either an error
(`res.writeHead(status)` plus an `{error: message}` body) or a success with a
JSON payload. -/
inductive ApiResponse (α : Type) where
  | error (status : Nat) (message : String)
  | ok (status : Nat) (payload : α)
deriving DecidableEq, Repr

/-- The query parameters read by `handleLitigationAPI`; `none` models an
absent URL parameter (JavaScript `params.get` returning `null`). -/
structure Criteria where
  classification : Option String
  agency : Option String
  community : Option String
  status : Option String
  id : Option String
deriving DecidableEq, Repr

/-- One optional filtering stage of `handleLitigationAPI`: JavaScript
`if (param) entries = entries.filter(pred)` — an absent (`null`) or empty
parameter is falsy and leaves the list unchanged. -/
def stage (p : Option String) (pred : String → Entry → Bool)
    (l : List Entry) : List Entry :=
  match p with
  | none => l
  | some s => if s == "" then l else l.filter (pred s)

/-- The classification predicate of `handleLitigationAPI`:
`e.classification === classification.toUpperCase()`. -/
def classPred (s : String) (e : Entry) : Bool :=
  e.classification == jsToUpper s

/-- The per-reference agency test of `handleLitigationAPI`:
`a.agency.toUpperCase() === agency.toUpperCase() ||
 (a.subAgency && a.subAgency.toUpperCase().includes(agency.toUpperCase()))`. -/
def agencyRefHit (s : String) (a : AgencyRef) : Bool :=
  jsToUpper a.agency == jsToUpper s ||
    (match a.subAgency with
     | some sub => jsIncludes (jsToUpper sub) (jsToUpper s)
     | none => false)

/-- The agency predicate of `handleLitigationAPI`:
`e.agenciesInvolved.some(...)`. -/
def agencyPred (s : String) (e : Entry) : Bool :=
  e.agenciesInvolved.any (agencyRefHit s)

/-- The community predicate of `handleLitigationAPI`:
`e.culturalImpactAnalysis.affectedCommunities.some(c =>
 c.toLowerCase().includes(community.toLowerCase()))`. -/
def communityPred (s : String) (e : Entry) : Bool :=
  e.culturalImpactAnalysis.affectedCommunities.any
    (fun c => jsIncludes (jsToLower c) (jsToLower s))

/-- The status predicate of `handleLitigationAPI`:
`e.currentStatus.toLowerCase().includes(status.toLowerCase())`. -/
def statusPred (s : String) (e : Entry) : Bool :=
  jsIncludes (jsToLower e.currentStatus) (jsToLower s)

/-- The id predicate of `handleLitigationAPI`: `e.id === id`. -/
def idPred (s : String) (e : Entry) : Bool :=
  e.id == s

/-- The filtering pipeline of `handleLitigationAPI`: the five optional
filters applied in source order (classification, agency, community, status,
id). -/
def filterEntries (c : Criteria) (l : List Entry) : List Entry :=
  stage c.id idPred
    (stage c.status statusPred
      (stage c.community communityPred
        (stage c.agency agencyPred
          (stage c.classification classPred l))))

/-- The success payload of `/api/litigation`. -/
structure LitigationPayload where
  count : Nat
  entries : List Entry
  metadata : Metadata
deriving DecidableEq, Repr

/-- Embedding of `handleLitigationAPI`.  The `db` argument is the result of
`loadDatabase()`: `none` when the backing JSON file cannot be read or
parsed (the JavaScript function returns `null`), `some d` on success. -/
def handleLitigationAPI (db : Option Database) (c : Criteria) :
    ApiResponse LitigationPayload :=
  match db with
  | none => .error 500 "Database not available"
  | some d =>
    let entries := filterEntries c d.litigationEntries
    .ok 200 ⟨entries.length, entries, d.metadata⟩

/-- The concatenated, lowercased searchable text of `handleSearchAPI`:
case name, claims summary, narrative assessment, the agency codes and the
community labels, joined with spaces and lowercased. -/
def searchableText (e : Entry) : String :=
  jsToLower (joinSpace
    ([e.caseName, e.claimsAndLegalBasis.summary,
      e.culturalImpactAnalysis.narrativeAssessment]
      ++ e.agenciesInvolved.map (fun a => a.agency)
      ++ e.culturalImpactAnalysis.affectedCommunities))

/-- The core search of `handleSearchAPI`: keep the entries whose searchable
text contains every term of the lowercased, space-split query. -/
def searchResults (entries : List Entry) (q : String) : List Entry :=
  let terms := jsSplitOnSpace (jsToLower q)
  entries.filter (fun e => terms.all (fun t => jsIncludes (searchableText e) t))

/-- The success payload of `/api/litigation/search`. -/
structure SearchPayload where
  query : String
  count : Nat
  results : List Entry
deriving DecidableEq, Repr

/-- Embedding of `handleSearchAPI`.  `q = none` models an absent `q` URL
parameter; JavaScript `if (!query)` rejects both `null` and the empty
string with a 400 error. -/
def handleSearchAPI (db : Option Database) (q : Option String) :
    ApiResponse SearchPayload :=
  match db with
  | none => .error 500 "Database not available"
  | some d =>
    match q with
    | none => .error 400 "Search query required"
    | some qs =>
      if qs == "" then .error 400 "Search query required"
      else
        let results := searchResults d.litigationEntries qs
        .ok 200 ⟨qs, results.length, results⟩

/-- The status-category bucketing of `handleStatsAPI`: ordered
case-insensitive substring checks over the lowercased status text, first
match wins, no match falls through to `"Other"`. -/
def statusCategory (st : String) : String :=
  let s := jsToLower st
  if jsIncludes s "injunction granted" || jsIncludes s "judgment for plaintiffs" then
    "Protective Outcomes"
  else if jsIncludes s "active" || jsIncludes s "pending" then
    "Active Litigation"
  else if jsIncludes s "dismissed" || jsIncludes s "withdrew" then
    "Dismissed/Withdrawn"
  else if jsIncludes s "review" || jsIncludes s "watch" then
    "Under Review"
  else
    "Other"

/-- The accumulator update `acc[k] = (acc[k] || 0) + 1` on an
insertion-ordered association list (JavaScript object semantics). -/
def bump (k : String) : List (String × Nat) → List (String × Nat)
  | [] => [(k, 1)]
  | (k', v) :: rest =>
    if k' == k then (k', v + 1) :: rest else (k', v) :: bump k rest

/-- The `byClassification` aggregate of `handleStatsAPI`. -/
def byClassificationOf (entries : List Entry) : List (String × Nat) :=
  entries.foldl (fun acc e => bump e.classification acc) []

/-- The `byAgency` aggregate of `handleStatsAPI` (one count per occurrence
in each entry's agency list). -/
def byAgencyOf (entries : List Entry) : List (String × Nat) :=
  entries.foldl
    (fun acc e => e.agenciesInvolved.foldl (fun a2 a => bump a.agency a2) acc) []

/-- The `byCommunity` aggregate of `handleStatsAPI`. -/
def byCommunityOf (entries : List Entry) : List (String × Nat) :=
  entries.foldl
    (fun acc e =>
      e.culturalImpactAnalysis.affectedCommunities.foldl
        (fun a2 c => bump c a2) acc) []

/-- The `byStatus` aggregate of `handleStatsAPI`: one count per entry, keyed
by the entry's status category. -/
def byStatusOf (entries : List Entry) : List (String × Nat) :=
  entries.foldl (fun acc e => bump (statusCategory e.currentStatus) acc) []

/-- The success payload of `/api/litigation/stats`. -/
structure StatsPayload where
  totalEntries : Nat
  byClassification : List (String × Nat)
  byAgency : List (String × Nat)
  byCommunity : List (String × Nat)
  byStatus : List (String × Nat)
  lastUpdated : String
deriving DecidableEq, Repr

/-- Embedding of `handleStatsAPI`. -/
def handleStatsAPI (db : Option Database) : ApiResponse StatsPayload :=
  match db with
  | none => .error 500 "Database not available"
  | some d =>
    .ok 200
      ⟨d.litigationEntries.length,
        byClassificationOf d.litigationEntries,
        byAgencyOf d.litigationEntries,
        byCommunityOf d.litigationEntries,
        byStatusOf d.litigationEntries,
        d.metadata.lastUpdated⟩

/-- Spec-side reading of one optional criterion (§4.1 of the spec): an
absent or empty criterion imposes no constraint, a provided one must hold. -/
def critCheck (p : Option String) (pred : String → Entry → Bool) (e : Entry) : Bool :=
  match p with
  | none => true
  | some s => if s == "" then true else pred s e

/-- Spec-side conjunction of the five optional criteria of the filter
contract (§4.1): all provided criteria must match. -/
def specMatches (c : Criteria) (e : Entry) : Bool :=
  critCheck c.classification classPred e &&
  critCheck c.agency agencyPred e &&
  critCheck c.community communityPred e &&
  critCheck c.status statusPred e &&
  critCheck c.id idPred e

/-- Sum of the counts of an aggregate association list. -/
def sumVals (l : List (String × Nat)) : Nat :=
  (l.map Prod.snd).sum

/-- Modelled from the spec: the year component of an ISO `YYYY-MM-DD` date
string, used by the year criterion of §4.1 ("matches if the record's
primary date field's year component equals the criterion"). -/
def yearOf (date : String) : String :=
  String.mk (date.data.take 4)

/-- Modelled from the spec: a document record of the `filterAndSort`
utility (`utils/filters.js`, referenced by the repository's documentation
but not present in the source tree) with the fields the year-based filter
contract of §4.1 and §3 requires: a primary ISO date field and a threat
level. -/
structure Doc where
  id : String
  date : String
  threatLevel : String
deriving DecidableEq, Repr

/-- Modelled from the spec: the criteria object of `filterAndSort`
(`utils/filters.js`, not present in the source tree), restricted to the
threat and year criteria; absent or empty criteria impose no constraint
(§4.1). -/
structure FilterState where
  threatFilter : Option String
  yearFilter : Option String
deriving DecidableEq, Repr

/-- Modelled from the spec: the `filterAndSort` utility of
`utils/filters.js` (missing from the source tree; only its documentation
and call sites survive).  Per §4.1 each provided criterion must match:
`threatFilter` by exact case-insensitive classification match and
`yearFilter` by equality with the year component of the record's primary
date field; the filter is stable and absent/empty criteria impose no
constraint. -/
def filterAndSort (c : FilterState) (docs : List Doc) : List Doc :=
  let d1 :=
    match c.threatFilter with
    | none => docs
    | some t => if t == "" then docs else docs.filter (fun d => d.threatLevel == jsToUpper t)
  match c.yearFilter with
  | none => d1
  | some y => if y == "" then d1 else d1.filter (fun d => yearOf d.date == y)

/-- Modelled from the spec: a searchable document of the
`searchWithRelevance` utility (`utils/search.js`, not present in the source
tree), with a primary field (title / case name) and secondary fields
(narrative, community labels) per §4.2. -/
structure SDoc where
  title : String
  narrative : String
  communities : List String
deriving DecidableEq, Repr

/-- Modelled from the spec: the concatenated lowercased secondary text
(narrative, community labels) of a searchable document (§4.2). -/
def secondaryText (d : SDoc) : String :=
  jsToLower (joinSpace (d.narrative :: d.communities))

/-- Modelled from the spec: the full concatenated lowercased searchable
text of a document (title, narrative, community labels) (§4.2). -/
def sdocSearchable (d : SDoc) : String :=
  jsToLower (joinSpace (d.title :: d.narrative :: d.communities))

/-- Modelled from the spec: the weighted score contribution of one query
term (§4.2): weight `wP` for a hit in the primary field (title), weight
`wS` for a hit in the secondary fields, with `wP > wS` intended; the exact
numeric weights are left unspecified by the source, so they are
parameters. -/
def termScore (wP wS : Nat) (d : SDoc) (t : String) : Nat :=
  (if jsIncludes (jsToLower d.title) t then wP else 0) +
  (if jsIncludes (secondaryText d) t then wS else 0)

/-- Modelled from the spec: the relevance score of a document — the sum of
the weighted hits of every query term (§4.2). -/
def scoreOf (wP wS : Nat) (d : SDoc) (terms : List String) : Nat :=
  (terms.map (termScore wP wS d)).sum

/-- Modelled from the spec: the AND-of-terms match of §4.2 — every term
must occur as a substring of the concatenated searchable text. -/
def sdocMatches (d : SDoc) (terms : List String) : Bool :=
  terms.all (fun t => jsIncludes (sdocSearchable d) t)

/-- Modelled from the spec: stable insertion by descending key — the
inserted element goes before the first strictly-lower-or-equal key, so
elements already in the list keep their relative order and an element
inserted from further left stays left of equal keys. -/
def insertDesc (key : SDoc → Nat) (d : SDoc) : List SDoc → List SDoc
  | [] => [d]
  | x :: xs => if key x ≤ key d then d :: x :: xs else x :: insertDesc key d xs

/-- Modelled from the spec: stable sort by descending key (ties broken by
original collection order, §4.2). -/
def sortDesc (key : SDoc → Nat) : List SDoc → List SDoc
  | [] => []
  | x :: xs => insertDesc key x (sortDesc key xs)

/-- Modelled from the spec: `searchWithRelevance` of `utils/search.js`
(missing from the source tree).  Per §4.2: tokenize the lowercased query on
whitespace, keep the documents that contain every term (AND-of-terms) and
whose weighted score reaches `minScore`, rank by descending score with ties
in original order, and truncate to `maxResults` when provided. -/
def searchWithRelevance (wP wS : Nat) (docs : List SDoc) (q : String)
    (minScore : Nat) (maxResults : Option Nat) : List SDoc :=
  let terms := jsSplitOnSpace (jsToLower q)
  let matched := docs.filter
    (fun d => sdocMatches d terms && decide (minScore ≤ scoreOf wP wS d terms))
  let ranked := sortDesc (fun d => scoreOf wP wS d terms) matched
  match maxResults with
  | none => ranked
  | some n => ranked.take n

/-- A sample metadata object, used to evaluate the theorems on concrete
inputs. -/
def mdSample : Metadata :=
  ⟨"2025-09-30"⟩

/-- A sample litigation entry, used to evaluate the theorems on concrete
inputs. -/
def entrySample : Entry :=
  ⟨"tckc-001", "Alpha Nation v. EPA", "CRITICAL", "Active",
    [⟨"EPA", some "OW"⟩],
    ⟨"alpha water claims"⟩,
    ⟨["Tribal Nations"], "impact narrative"⟩⟩

/-- A sample one-entry database, used to evaluate the theorems on concrete
inputs. -/
def dbSample : Database :=
  ⟨[entrySample], mdSample⟩

/-- A sample document whose title contains the query term, used to evaluate
the ranking theorem on a concrete input. -/
def sdocX : SDoc :=
  ⟨"Indigenous Sites Protection Case", "court narrative", []⟩

/-- A sample document whose narrative alone contains the query term, used to
evaluate the ranking theorem on a concrete input. -/
def sdocY : SDoc :=
  ⟨"Water Permits Case", "indigenous rights narrative", []⟩

/-- A sample document for the year-filter theorem. -/
def docSample : Doc :=
  ⟨"hist-001", "2025-01-20", "CRITICAL"⟩

theorem stage_eq_filter (p : Option String) (pred : String → Entry → Bool)
    (l : List Entry) : stage p pred l = l.filter (fun e => critCheck p pred e) := by
  cases p with
  | none => simp [stage, critCheck]
  | some s =>
    by_cases hs : s == ""
    · simp [stage, critCheck, hs]
    · simp [stage, critCheck, hs]

theorem filterEntries_eq_filter (c : Criteria) (l : List Entry) :
    filterEntries c l = l.filter (specMatches c) := by
  unfold filterEntries
  rw [stage_eq_filter, stage_eq_filter, stage_eq_filter, stage_eq_filter,
    stage_eq_filter, List.filter_filter, List.filter_filter, List.filter_filter,
    List.filter_filter]
  apply List.filter_congr
  intro e _
  simp [specMatches, Bool.and_comm, Bool.and_assoc, Bool.and_left_comm]

theorem sumVals_bump (k : String) (acc : List (String × Nat)) :
    sumVals (bump k acc) = sumVals acc + 1 := by
  induction acc with
  | nil => simp [bump, sumVals]
  | cons kv rest ih =>
    obtain ⟨k', v⟩ := kv
    by_cases h : (k' == k) = true
    · rw [bump, if_pos h]
      simp [sumVals]
      omega
    · rw [bump, if_neg h]
      simp only [sumVals, List.map_cons, List.sum_cons] at ih ⊢
      omega

theorem sumVals_foldl_bump {α : Type} (f : α → String) :
    ∀ (l : List α) (acc : List (String × Nat)),
      sumVals (l.foldl (fun a e => bump (f e) a) acc) = sumVals acc + l.length := by
  intro l
  induction l with
  | nil => intro acc; simp
  | cons x xs ih =>
    intro acc
    simp only [List.foldl_cons, List.length_cons]
    rw [ih, sumVals_bump]
    omega

theorem leadsWith_append (n l r : List Char) (h : leadsWith n l = true) :
    leadsWith n (l ++ r) = true := by
  induction n generalizing l with
  | nil => rfl
  | cons a as ih =>
    cases l with
    | nil => simp [leadsWith] at h
    | cons b bs =>
      simp only [leadsWith, Bool.and_eq_true] at h
      simp only [List.cons_append, leadsWith, Bool.and_eq_true]
      exact ⟨h.1, ih bs h.2⟩

theorem occursIn_nil_needle (l : List Char) : occursIn [] l = true := by
  cases l with
  | nil => rfl
  | cons b bs => rfl

theorem occursIn_append_left (n l r : List Char) (h : occursIn n l = true) :
    occursIn n (l ++ r) = true := by
  induction l with
  | nil =>
    simp only [occursIn, List.isEmpty_iff] at h
    subst h
    simpa using occursIn_nil_needle r
  | cons b bs ih =>
    simp only [occursIn, Bool.or_eq_true] at h
    rcases h with h | h
    · simp only [List.cons_append, occursIn, Bool.or_eq_true]
      exact Or.inl (by simpa using leadsWith_append n (b :: bs) r h)
    · simp only [List.cons_append, occursIn, Bool.or_eq_true]
      exact Or.inr (ih h)

theorem occursIn_append_right (n l r : List Char) (h : occursIn n r = true) :
    occursIn n (l ++ r) = true := by
  induction l with
  | nil => simpa using h
  | cons b bs ih =>
    simp only [List.cons_append, occursIn, Bool.or_eq_true]
    exact Or.inr ih

theorem strData_append (a b : String) : (a ++ b).data = a.data ++ b.data := rfl

theorem jsToLower_data (s : String) :
    (jsToLower s).data = s.data.map Char.toLower := rfl

theorem sdocSearchable_of_title (d : SDoc) (t : String)
    (h : jsIncludes (jsToLower d.title) t = true) :
    jsIncludes (sdocSearchable d) t = true := by
  unfold jsIncludes at h ⊢
  rw [jsToLower_data] at h
  show occursIn t.data
    (jsToLower (d.title ++ " " ++ joinSpace (d.narrative :: d.communities))).data = true
  rw [jsToLower_data, strData_append, strData_append, List.map_append,
    List.map_append]
  exact occursIn_append_left _ _ _ (occursIn_append_left _ _ _ h)

theorem sdocSearchable_of_secondary (d : SDoc) (t : String)
    (h : jsIncludes (secondaryText d) t = true) :
    jsIncludes (sdocSearchable d) t = true := by
  unfold jsIncludes at h ⊢
  have h' : occursIn t.data
      ((joinSpace (d.narrative :: d.communities)).data.map Char.toLower) = true := h
  show occursIn t.data
    (jsToLower (d.title ++ " " ++ joinSpace (d.narrative :: d.communities))).data = true
  rw [jsToLower_data, strData_append, strData_append, List.map_append,
    List.map_append]
  exact occursIn_append_right _ _ _ h'

theorem agencyRefHit_iff (s : String) (a : AgencyRef) :
    agencyRefHit s a = true ↔
      (jsToUpper a.agency = jsToUpper s ∨
        ∃ sub, a.subAgency = some sub ∧
          jsIncludes (jsToUpper sub) (jsToUpper s) = true) := by
  obtain ⟨ag, sub⟩ := a
  cases sub with
  | none => simp [agencyRefHit]
  | some sb => simp [agencyRefHit]

/-- C1: for every record collection and every criteria object, the output of
the filter operation of `handleLitigationAPI` is exactly the stable filter of
the input by the conjunction of the provided criteria — hence a subsequence
of the input preserving relative order whose every element satisfies all
provided criteria, with absent or empty criteria imposing no constraint
(`critCheck` of an absent/empty criterion is `true`). -/
theorem c1_filter_subset_law (c : Criteria) (entries : List Entry) :
    filterEntries c entries = entries.filter (specMatches c) ∧
    List.Sublist (filterEntries c entries) entries := by
  refine ⟨filterEntries_eq_filter c entries, ?_⟩
  rw [filterEntries_eq_filter]
  exact List.filter_sublist entries

/-- C2: a record is included in the search results of `handleSearchAPI` iff
it belongs to the input collection and its concatenated searchable text
(case name, claims summary, narrative assessment, agency names, community
labels) contains every whitespace-split lowercased query term as a
substring; a record missing any term is excluded. -/
theorem c2_search_and_of_terms (entries : List Entry) (q : String) (e : Entry) :
    e ∈ searchResults entries q ↔
      e ∈ entries ∧
        ∀ t ∈ jsSplitOnSpace (jsToLower q), jsIncludes (searchableText e) t = true := by
  unfold searchResults
  simp [List.mem_filter, List.all_eq_true]

theorem c2_search_and_of_terms_witness :
    entrySample ∈ searchResults [entrySample] "alpha water" :=
  (c2_search_and_of_terms [entrySample] "alpha water" entrySample).mpr (by decide)

/-- C3: `statusCategory` assigns every status to exactly one bucket by the
ordered case-insensitive substring checks of `handleStatsAPI` — injunction
granted / judgment for plaintiffs first, then active / pending, then
dismissed / withdrew, then review / watch, else Other — and in particular
the status text "active, under review" buckets as "Active Litigation", not
"Under Review". -/
theorem c3_status_bucket_precedence (st : String) :
    ((jsIncludes (jsToLower st) "injunction granted" = true ∨
      jsIncludes (jsToLower st) "judgment for plaintiffs" = true) →
      statusCategory st = "Protective Outcomes") ∧
    (jsIncludes (jsToLower st) "injunction granted" = false →
      jsIncludes (jsToLower st) "judgment for plaintiffs" = false →
      (jsIncludes (jsToLower st) "active" = true ∨
        jsIncludes (jsToLower st) "pending" = true) →
      statusCategory st = "Active Litigation") ∧
    (jsIncludes (jsToLower st) "injunction granted" = false →
      jsIncludes (jsToLower st) "judgment for plaintiffs" = false →
      jsIncludes (jsToLower st) "active" = false →
      jsIncludes (jsToLower st) "pending" = false →
      (jsIncludes (jsToLower st) "dismissed" = true ∨
        jsIncludes (jsToLower st) "withdrew" = true) →
      statusCategory st = "Dismissed/Withdrawn") ∧
    (jsIncludes (jsToLower st) "injunction granted" = false →
      jsIncludes (jsToLower st) "judgment for plaintiffs" = false →
      jsIncludes (jsToLower st) "active" = false →
      jsIncludes (jsToLower st) "pending" = false →
      jsIncludes (jsToLower st) "dismissed" = false →
      jsIncludes (jsToLower st) "withdrew" = false →
      (jsIncludes (jsToLower st) "review" = true ∨
        jsIncludes (jsToLower st) "watch" = true) →
      statusCategory st = "Under Review") ∧
    (jsIncludes (jsToLower st) "injunction granted" = false →
      jsIncludes (jsToLower st) "judgment for plaintiffs" = false →
      jsIncludes (jsToLower st) "active" = false →
      jsIncludes (jsToLower st) "pending" = false →
      jsIncludes (jsToLower st) "dismissed" = false →
      jsIncludes (jsToLower st) "withdrew" = false →
      jsIncludes (jsToLower st) "review" = false →
      jsIncludes (jsToLower st) "watch" = false →
      statusCategory st = "Other") ∧
    statusCategory "active, under review" = "Active Litigation" ∧
    statusCategory "active, under review" ≠ "Under Review" := by
  refine ⟨?_, ?_, ?_, ?_, ?_, by decide, by decide⟩
  · rintro (h | h) <;> simp [statusCategory, h]
  · intro h1 h2 h3
    rcases h3 with h | h <;> simp [statusCategory, h1, h2, h]
  · intro h1 h2 h3 h4 h5
    rcases h5 with h | h <;> simp [statusCategory, h1, h2, h3, h4, h]
  · intro h1 h2 h3 h4 h5 h6 h7
    rcases h7 with h | h <;> simp [statusCategory, h1, h2, h3, h4, h5, h6, h]
  · intro h1 h2 h3 h4 h5 h6 h7 h8
    simp [statusCategory, h1, h2, h3, h4, h5, h6, h7, h8]

theorem c3_status_bucket_precedence_witness :
    statusCategory "Dismissed by the court" = "Dismissed/Withdrawn" :=
  (c3_status_bucket_precedence "Dismissed by the court").2.2.1
    (by decide) (by decide) (by decide) (by decide) (Or.inl (by decide))

/-- C4: for every record collection the counts of the `byClassification`
aggregate of `handleStatsAPI` sum to the number of records (every record
holds exactly one classification and contributes exactly one count), and
the empty collection yields all-empty aggregate mappings without error. -/
theorem c4_aggregation_totals :
    (∀ entries : List Entry, sumVals (byClassificationOf entries) = entries.length) ∧
    byClassificationOf [] = [] ∧ byAgencyOf [] = [] ∧
    byCommunityOf [] = [] ∧ byStatusOf [] = [] := by
  refine ⟨?_, rfl, rfl, rfl, rfl⟩
  intro entries
  have h := sumVals_foldl_bump (fun e : Entry => e.classification) entries []
  simpa [byClassificationOf, sumVals] using h

/-- C5: for every query operation, a failed database load (`loadDatabase`
returning null) is surfaced as a 500 "Database not available" error and is
never an `ok` response, while a successfully loaded database whose query
matches nothing yields a successful empty result with count 0. -/
theorem c5_load_failure_vs_empty :
    (∀ c : Criteria,
      handleLitigationAPI none c = ApiResponse.error 500 "Database not available") ∧
    (∀ q : Option String,
      handleSearchAPI none q = ApiResponse.error 500 "Database not available") ∧
    handleStatsAPI none = ApiResponse.error 500 "Database not available" ∧
    (∀ (c : Criteria) (st : Nat) (p : LitigationPayload),
      handleLitigationAPI none c ≠ ApiResponse.ok st p) ∧
    (∀ (q : Option String) (st : Nat) (p : SearchPayload),
      handleSearchAPI none q ≠ ApiResponse.ok st p) ∧
    (∀ (st : Nat) (p : StatsPayload),
      handleStatsAPI none ≠ ApiResponse.ok st p) ∧
    (∀ (d : Database) (c : Criteria),
      filterEntries c d.litigationEntries = [] →
      handleLitigationAPI (some d) c = ApiResponse.ok 200 ⟨0, [], d.metadata⟩) ∧
    (∀ (d : Database) (qs : String),
      (qs == "") = false →
      searchResults d.litigationEntries qs = [] →
      handleSearchAPI (some d) (some qs) = ApiResponse.ok 200 ⟨qs, 0, []⟩) := by
  refine ⟨fun c => rfl, fun q => rfl, rfl, ?_, ?_, ?_, ?_, ?_⟩
  · intro c st p h
    exact ApiResponse.noConfusion h
  · intro q st p h
    exact ApiResponse.noConfusion h
  · intro st p h
    exact ApiResponse.noConfusion h
  · intro d c h
    simp [handleLitigationAPI, h]
  · intro d qs hq h
    simp [handleSearchAPI, hq, h]

theorem c5_load_failure_vs_empty_witness :
    handleLitigationAPI (some dbSample) ⟨some "WATCH", none, none, none, none⟩ =
      ApiResponse.ok 200 ⟨0, [], mdSample⟩ :=
  c5_load_failure_vs_empty.2.2.2.2.2.2.1 dbSample
    ⟨some "WATCH", none, none, none, none⟩ (by decide)

/-- C6 counterexample: a whitespace-only search query is not rejected by
`handleSearchAPI` — on the sample database the query `" "` produces a
successful match-all response, not the 400 "Search query required" error
the claim requires. -/
theorem c6_counterexample :
    handleSearchAPI (some dbSample) (some " ") =
      ApiResponse.ok 200 ⟨" ", 1, [entrySample]⟩ ∧
    handleSearchAPI (some dbSample) (some " ") ≠
      ApiResponse.error 400 "Search query required" := by
  constructor
  · decide
  · decide

/-- C6 amended: a missing or empty search query is rejected with the 400
"Search query required" client-input error, but a whitespace-only query is
not rejected as a client-input error — the handler accepts it and returns a
successful 200 response containing whatever entries its whitespace-split
terms match. -/
theorem c6_amended_query_validation :
    (∀ db : Database,
      handleSearchAPI (some db) none = ApiResponse.error 400 "Search query required") ∧
    (∀ db : Database,
      handleSearchAPI (some db) (some "") = ApiResponse.error 400 "Search query required") ∧
    (∀ (db : Database) (w : String), w ≠ "" →
      (∀ ch ∈ w.data, ch.isWhitespace = true) →
      handleSearchAPI (some db) (some w) =
        ApiResponse.ok 200
          ⟨w, (searchResults db.litigationEntries w).length,
            searchResults db.litigationEntries w⟩) := by
  refine ⟨fun db => rfl, fun db => rfl, ?_⟩
  intro db w hw _hws
  have hb : (w == "") = false := by simp [hw]
  simp [handleSearchAPI, hb]

theorem c6_amended_query_validation_witness :
    handleSearchAPI (some dbSample) (some " ") =
      ApiResponse.ok 200
        ⟨" ", (searchResults dbSample.litigationEntries " ").length,
          searchResults dbSample.litigationEntries " "⟩ :=
  c6_amended_query_validation.2.2 dbSample " " (by decide) (by decide)

/-- C7: the `filterAndSort` filter operation accepts a year criterion, and
when it is provided a record is included only if the year component of the
record's primary date field equals the criterion. -/
theorem c7_year_criterion (docs : List Doc) (c : FilterState) (y : String)
    (d : Doc) (hc : c.yearFilter = some y) (hy : (y == "") = false)
    (hd : d ∈ filterAndSort c docs) : yearOf d.date = y := by
  unfold filterAndSort at hd
  rw [hc] at hd
  simp [hy, List.mem_filter] at hd
  exact hd.2

theorem c7_year_criterion_witness : yearOf docSample.date = "2025" :=
  c7_year_criterion [docSample] ⟨none, some "2025"⟩ "2025" docSample rfl
    (by decide) (by decide)

/-- C8: for a provided agency criterion, a record passes the agency filter of
`handleLitigationAPI` iff some agency reference has an agency code equal to
the criterion case-insensitively or a sub-agency code containing the
criterion case-insensitively; a criterion matching no entry yields the empty
result, never an error. -/
theorem c8_agency_criterion (entries : List Entry) (s : String) (e : Entry)
    (hs : (s == "") = false) :
    (e ∈ filterEntries ⟨none, some s, none, none, none⟩ entries ↔
      e ∈ entries ∧ ∃ a ∈ e.agenciesInvolved,
        jsToUpper a.agency = jsToUpper s ∨
        ∃ sub, a.subAgency = some sub ∧
          jsIncludes (jsToUpper sub) (jsToUpper s) = true) ∧
    ((∀ e' ∈ entries, agencyPred s e' = false) →
      filterEntries ⟨none, some s, none, none, none⟩ entries = []) := by
  constructor
  · rw [filterEntries_eq_filter, List.mem_filter]
    simp [specMatches, critCheck, hs, agencyPred, List.any_eq_true, agencyRefHit_iff]
  · intro h
    rw [filterEntries_eq_filter]
    apply List.filter_eq_nil_iff.mpr
    intro a ha
    simp [specMatches, critCheck, hs, h a ha]

theorem c8_agency_criterion_witness :
    entrySample ∈ filterEntries ⟨none, some "epa", none, none, none⟩ [entrySample] :=
  ((c8_agency_criterion [entrySample] "epa" entrySample (by decide)).1).mpr
    ⟨by decide, ⟨"EPA", some "OW"⟩, by decide, Or.inl (by decide)⟩

/-- C9: with relevance scoring enabled and any weights giving primary fields
more weight than secondary fields, `searchWithRelevance` ranks a record X
whose title contains the query term above a record Y containing the term
only in its narrative: both match, X scores at least the primary weight, Y
scores exactly the secondary weight, and the stable descending sort returns
X before Y. -/
theorem c9_relevance_ranking (wP wS : Nat) (X Y : SDoc) (hw : wS < wP)
    (hX : jsIncludes (jsToLower X.title) "indigenous" = true)
    (hY1 : jsIncludes (jsToLower Y.title) "indigenous" = false)
    (hY2 : jsIncludes (secondaryText Y) "indigenous" = true) :
    searchWithRelevance wP wS [X, Y] "indigenous" 0 none = [X, Y] := by
  have hterms : jsSplitOnSpace (jsToLower "indigenous") = ["indigenous"] := rfl
  have hmX : sdocMatches X ["indigenous"] = true := by
    simp [sdocMatches, sdocSearchable_of_title X "indigenous" hX]
  have hmY : sdocMatches Y ["indigenous"] = true := by
    simp [sdocMatches, sdocSearchable_of_secondary Y "indigenous" hY2]
  have hsY : scoreOf wP wS Y ["indigenous"] = wS := by
    simp [scoreOf, termScore, hY1, hY2]
  have hsX : scoreOf wP wS X ["indigenous"] = wP ∨
      scoreOf wP wS X ["indigenous"] = wP + wS := by
    rcases Bool.eq_false_or_eq_true (jsIncludes (secondaryText X) "indigenous") with hb | hb
    · right
      simp [scoreOf, termScore, hX, hb]
    · left
      simp [scoreOf, termScore, hX, hb]
  have hle : scoreOf wP wS Y ["indigenous"] ≤ scoreOf wP wS X ["indigenous"] := by
    rcases hsX with h | h <;> rw [hsY, h] <;> omega
  have hpX : (sdocMatches X ["indigenous"] &&
      decide (0 ≤ scoreOf wP wS X ["indigenous"])) = true := by
    simp [hmX]
  have hpY : (sdocMatches Y ["indigenous"] &&
      decide (0 ≤ scoreOf wP wS Y ["indigenous"])) = true := by
    simp [hmY]
  simp only [searchWithRelevance, hterms]
  simp [List.filter_cons, hpX, hpY, hmX, hmY, sortDesc, insertDesc, hle]

theorem c9_relevance_ranking_witness :
    searchWithRelevance 10 1 [sdocX, sdocY] "indigenous" 0 none = [sdocX, sdocY] :=
  c9_relevance_ranking 10 1 sdocX sdocY (by decide) (by decide) (by decide)
    (by decide)

/-- C10: the status-category buckets of `handleStatsAPI` partition the
collection — each record contributes exactly one count to exactly one
bucket, so the counts of `byStatus` sum to the number of records, and every
bucket is one of the five category labels. -/
theorem c10_status_partition (entries : List Entry) :
    sumVals (byStatusOf entries) = entries.length ∧
    ∀ st : String, statusCategory st ∈
      ["Protective Outcomes", "Active Litigation", "Dismissed/Withdrawn",
        "Under Review", "Other"] := by
  constructor
  · have h := sumVals_foldl_bump
      (fun e : Entry => statusCategory e.currentStatus) entries []
    simpa [byStatusOf, sumVals] using h
  · intro st
    simp only [statusCategory]
    split
    · simp
    · split
      · simp
      · split
        · simp
        · split <;> simp
